import Mathlib

/-!
Verification of the concurrent annotation pipeline of the SLG ad weekly
analyzer, a shallow embedding of `src/analyzer.py` (class `VideoAnalyzer`).

Conventions of the embedding:
* Python dictionaries for one video become the structure `Item` (the fields
  the analyzer reads) and `AnnotatedItem` (the returned copy, together with
  the optional `"analysis"` entry).
* The remote service, the thread scheduler's completion order and the file
  system are oracles passed explicitly to each function.
* Effects the claims talk about (remote calls, sleeps, deletions, log
  warnings) are returned in explicit trace structures.
-/

namespace SlgPipeline

instance instDecEqExcept {ε α : Type} [DecidableEq ε] [DecidableEq α] :
    DecidableEq (Except ε α) := fun x y =>
  match x, y with
  | .error e, .error f =>
      if h : e = f then isTrue (by subst h; rfl)
      else isFalse (fun hh => h (Except.error.inj hh))
  | .ok a, .ok b =>
      if h : a = b then isTrue (by subst h; rfl)
      else isFalse (fun hh => h (Except.ok.inj hh))
  | .error _, .ok _ => isFalse (fun hh => Except.noConfusion hh)
  | .ok _, .error _ => isFalse (fun hh => Except.noConfusion hh)

/-- The five structured dimensions produced for one video
(`VideoAnalysisResult` in the source). -/
structure Analysis where
  hook_design : String
  emotional_appeal : String
  content_structure : String
  wow_factor : String
  copywriting_features : String
  deriving DecidableEq, Repr

/-- The three dimensions of the strategic report
(`StrategySummaryResult` in the source). -/
structure StrategySummary where
  hit_patterns : String
  competitor_tactics : String
  actionable_advice : String
  deriving DecidableEq, Repr

/-- One video record handed to the pipeline: the metadata the analyzer reads
(`app_name`, `rank`) and the cache identity `video_data.get('video_url')`,
which may be missing. -/
structure Item where
  app_name : String
  rank : Nat
  video_url : Option String
  deriving DecidableEq, Repr

/-- Placeholder item used only to totalize `List.getD`; mirrors
`videos[i]` being well defined for every submitted index. -/
def dummyItem : Item := ⟨"", 0, none⟩

/-- The dictionary returned for one video: the input item's fields plus an
optional `"analysis"` entry.  `analyze_single_video` returns
`video_data.copy()` with an `"analysis"` key added; no other key (in
particular no status tag) is ever added. -/
structure AnnotatedItem where
  item : Item
  analysis : Option Analysis
  deriving DecidableEq, Repr

/-- Python truthiness of the optional `video_url` string: `None` and the
empty string are falsy (`if video_url and ...`, `if not video_url`). -/
def urlTruthy : Option String → Bool
  | none => false
  | some s => s != ""

/-- The in-memory `analysis_cache`: a mapping from video URL to analysis,
modelled as an association list with overwrite-on-collision update. -/
abbrev Cache := List (String × Analysis)

/-- `video_url in self.analysis_cache` / `self.analysis_cache[video_url]`. -/
def cacheLookup (c : Cache) (k : String) : Option Analysis :=
  match c.find? (fun p => p.1 == k) with
  | some p => some p.2
  | none => none

/-- `self.analysis_cache[video_url] = analysis`: overwrite if the key is
present, otherwise add the binding. -/
def cacheInsert (c : Cache) (k : String) (v : Analysis) : Cache :=
  if (c.find? (fun p => p.1 == k)).isSome then
    c.map (fun p => if p.1 == k then (k, v) else p)
  else
    c ++ [(k, v)]

/-- The fixed placeholder analysis of `_mock_single_analysis`. -/
def mockAnalysis : Analysis :=
  { hook_design := "展示了由于选择了错误道具导致的小游戏失败，从而引发用户的挫败感和‘一定要选对’的冲动。"
    emotional_appeal := "轻微的焦虑感，并承诺在成功而且升级后提供巨大的满足感和解压感。"
    content_structure := "提出危机（被僵尸包围/挨冻） -> 玩家手忙脚乱操作失败 -> 重新升级基地应对方案 -> 利用大招获得成功清屏。"
    wow_factor := "密集且恐怖的丧尸群被范围武器瞬间秒杀，呈现极强的视觉冲击和解压感。"
    copywriting_features := "‘只有 1% 的人能通关！’ / ‘立即下载拯救他们！’ / 紧迫的数字倒计时。" }

/-- The fixed placeholder summary of `_mock_strategy_summary`. -/
def mockStrategySummary : StrategySummary :=
  { hit_patterns := "多数爆款素材高度依赖‘失败心理暗示’。素材中刻意展示并不反映真实核心玩法的低难度挫败场景，极其有效地构建了‘我上我也行’的心理预期，从而吸引点击。"
    competitor_tactics := "头部竞品正在将超休闲玩法的解谜元素与硬核的 4X 策略背景结合，大幅降低了用户的认知门槛与核心受众的获客成本(CPA)。"
    actionable_advice := "建议下周测试创意重心从‘城建升级’转移到‘A与B二选一’的高压互动场景，要求必须在视频前5秒内直接解决即时危机。" }

/-- `_mock_single_analysis`: the input item with the fixed placeholder
analysis attached (`result.update({"analysis": ...})`). -/
def mock_single_analysis (v : Item) : AnnotatedItem :=
  ⟨v, some mockAnalysis⟩

/-- The cache-miss branch of `analyze_single_video`: mock mode returns the
placeholder; otherwise `_real_single_analysis` is attempted (its outcome is
the oracle `runReal`) and any exception falls back to the placeholder. -/
def missResult (use_mock : Bool) (runReal : Except String Analysis) (v : Item) :
    AnnotatedItem :=
  if use_mock then mock_single_analysis v
  else
    match runReal with
    | .ok a => ⟨v, some a⟩
    | .error _ => mock_single_analysis v

/-- `analyze_single_video`: under a truthy URL a cache hit returns the cached
analysis and leaves the cache untouched; on a miss the result comes from
`missResult`, and any result carrying an `"analysis"` entry under a truthy
URL is written through to the cache (`self.analysis_cache[video_url] =
result["analysis"]` followed by `_save_cache`).  Returns the produced item
together with the in-memory cache afterwards. -/
def analyze_single_video (use_mock : Bool) (runReal : Except String Analysis)
    (cache : Cache) (v : Item) : AnnotatedItem × Cache :=
  if urlTruthy v.video_url then
    let url := v.video_url.getD ""
    match cacheLookup cache url with
    | some a => (⟨v, some a⟩, cache)
    | none =>
        let result := missResult use_mock runReal v
        match result.analysis with
        | some a => (result, cacheInsert cache url a)
        | none => (result, cache)
  else
    (missResult use_mock runReal v, cache)

/-! ### Concurrency scheduler (`analyze_videos_concurrently`) -/

/-- `results = [None] * n` updated at original indices as futures complete:
fold the completion order over `List.set`. -/
def fillByIndex (g : Nat → α) (order : List Nat) (init : List α) : List α :=
  order.foldl (fun acc i => acc.set i (g i)) init

/-- What the fan-in loop stores at index `i`: `future.result()` on success,
the plain input `videos[i]` (no `"analysis"` entry) when the worker raised. -/
def schedulerEntry (videos : List Item)
    (compute : Nat → Except String AnnotatedItem) (i : Nat) : AnnotatedItem :=
  match compute i with
  | .ok r => r
  | .error _ => ⟨videos.getD i dummyItem, none⟩

/-- `analyze_videos_concurrently`: submit one worker per index, then fill the
preallocated result list keyed by original index in whatever order the
futures complete (`completionOrder`).  The worker outcomes are the oracle
`compute`. -/
def analyze_videos_concurrently (videos : List Item)
    (compute : Nat → Except String AnnotatedItem) (completionOrder : List Nat) :
    List (Option AnnotatedItem) :=
  fillByIndex (fun i => some (schedulerEntry videos compute i)) completionOrder
    (List.replicate videos.length none)

/-! ### Retry coordinator (`_call_api_with_retry`) -/

/-- Failure classes `_call_api_with_retry` distinguishes on the error text:
`"404"`/`"not found"`, `"429"`, `"500"`/`"503"`, anything else. -/
inductive ErrKind where
  | notFound
  | rateLimit
  | serverError
  | other
  deriving DecidableEq, Repr

/-- Outcome of one pass of the inner `for model_id in models_to_try` loop. -/
inductive InnerOut (α : Type) where
  | success (a : α)
  | backoff (e : ErrKind)
  | exhausted (last : Option ErrKind)
  deriving DecidableEq, Repr

/-- The inner model loop: try each candidate in order.  Success returns;
`404`/not-found advances to the next candidate with no delay; `429` and
`500/503` on a round with `attempt < maxRetries - 1` stop the pass for a
backoff sleep, while on the final round they fall through to the generic
advance; any other error advances to the next candidate.  Returns the loop
outcome and the candidates actually called, in order.  `last` threads
`last_error`. -/
def runInner (oracle : Nat → String → Except ErrKind α) (attempt maxRetries : Nat) :
    List String → Option ErrKind → InnerOut α × List String
  | [], last => (.exhausted last, [])
  | m :: rest, last =>
    match oracle attempt m with
    | .ok a => (.success a, [m])
    | .error e =>
      match e with
      | .notFound =>
          let r := runInner oracle attempt maxRetries rest (some e)
          (r.1, m :: r.2)
      | .rateLimit =>
          if attempt < maxRetries - 1 then (.backoff e, [m])
          else
            let r := runInner oracle attempt maxRetries rest (some e)
            (r.1, m :: r.2)
      | .serverError =>
          if attempt < maxRetries - 1 then (.backoff e, [m])
          else
            let r := runInner oracle attempt maxRetries rest (some e)
            (r.1, m :: r.2)
      | .other =>
          let r := runInner oracle attempt maxRetries rest (some e)
          (r.1, m :: r.2)

/-- Observable behaviour of one `_call_api_with_retry` invocation: the models
called per outer round (with the round's `attempt` index), the sleeps
performed in order with their delays, and the returned response or the
error carried by the final `raise`. -/
structure RetryTrace (α : Type) where
  rounds : List (Nat × List String)
  sleeps : List Nat
  result : Except (Option ErrKind) α
  deriving DecidableEq, Repr

/-- The outer `for attempt in range(max_retries)` loop: `remaining` counts
the rounds left, `attempt` the current round index, `delay` the current
`retry_delay` (doubled after each sleep, unchanged otherwise). -/
def runOuter (oracle : Nat → String → Except ErrKind α) (models : List String)
    (maxRetries : Nat) : Nat → Nat → Nat → Option ErrKind → RetryTrace α
  | 0, _, _, last => ⟨[], [], .error last⟩
  | remaining + 1, attempt, delay, last =>
    match runInner oracle attempt maxRetries models last with
    | (.success a, ms) => ⟨[(attempt, ms)], [], .ok a⟩
    | (.backoff e, ms) =>
        let t := runOuter oracle models maxRetries remaining (attempt + 1) (delay * 2) (some e)
        ⟨(attempt, ms) :: t.rounds, delay :: t.sleeps, t.result⟩
    | (.exhausted last2, ms) =>
        let t := runOuter oracle models maxRetries remaining (attempt + 1) delay last2
        ⟨(attempt, ms) :: t.rounds, t.sleeps, t.result⟩

/-- `_call_api_with_retry(models_to_try, contents, config, max_retries)`:
`retry_delay` seeded at 2, outer loop over `range(max_retries)`. -/
def call_api_with_retry (oracle : Nat → String → Except ErrKind α)
    (models : List String) (maxRetries : Nat) : RetryTrace α :=
  runOuter oracle models maxRetries maxRetries 0 2 none

/-! ### Remote annotation client (`_real_single_analysis`) -/

/-- Gemini file states observed by the polling loop: the loop keeps running
on `"PROCESSING"`, `"FAILED"` is terminal, anything else (the ready state
`"ACTIVE"`) proceeds to inference. -/
inductive FileState where
  | processing
  | active
  | failed
  deriving DecidableEq, Repr

/-- Outcome of step 1 (download): `requests.get`/`raise_for_status` may raise
before `tempfile.mkstemp` ran, or writing the stream may raise after the
temp file exists, or the step succeeds. -/
inductive FetchOutcome where
  | failNoTemp
  | failWithTemp
  | ok
  deriving DecidableEq, Repr

/-- Exceptions `_real_single_analysis` can propagate. -/
inductive RealErr where
  | noUrl
  | fetchFail
  | uploadFail
  | timeout
  | processingFailed
  | inferFail (msg : String)
  deriving DecidableEq, Repr

/-- Warnings logged by the cleanup block. -/
inductive LogEvent where
  | deleteFailed
  | removeFailed
  deriving DecidableEq, Repr

/-- Environment oracle for one `_real_single_analysis` call: outcome of the
download, of the upload, the remote file state after upload (`states 0`) and
after each refresh (`states k`), the outcome of the retry-wrapped inference
plus response decoding, whether the remote delete and the local remove
succeed, and what `os.path.exists(temp_file_path)` reports at cleanup. -/
structure RealEnv where
  fetch : FetchOutcome
  upload_ok : Bool
  states : Nat → FileState
  infer : Except String Analysis
  delete_ok : Bool
  temp_exists : Bool
  remove_ok : Bool

/-- Observable behaviour of one `_real_single_analysis` call: the returned
dictionary or propagated exception, how often the remote-asset delete and
the local temp-file remove were invoked, whether the inference step ran,
the total time slept while polling, and the cleanup warnings logged. -/
structure RealTrace where
  result : Except RealErr AnnotatedItem
  deleteCalls : Nat
  removeCalls : Nat
  inferCalls : Nat
  sleptTotal : Nat
  warnLogs : List LogEvent
  deriving DecidableEq, Repr

/-- `max_wait_time // wait_interval` (180 // 5): the number of 5-time-unit
sleeps the polling loop can perform before `waited >= max_wait_time` holds. -/
def maxPollSleeps : Nat := 180 / 5

/-- The `while gemini_file.state.name == "PROCESSING"` loop, de-looped on the
number of sleeps still allowed (`fuel`; the source counts `waited` upward by
`wait_interval = 5` and times out at `waited >= 180`, which is the same
bound).  `k` indexes the next refresh (`states k`); the second component is
the total time slept.  With `fuel = 0` a still-processing state means
`waited` reached the bound, so the loop raises the timeout. -/
def pollGo (states : Nat → FileState) (k : Nat) (cur : FileState) :
    Nat → Except RealErr FileState × Nat
  | 0 => if cur = .processing then (.error .timeout, 0) else (.ok cur, 0)
  | fuel + 1 =>
    if cur = .processing then
      let r := pollGo states (k + 1) (states k) fuel
      (r.1, r.2 + 5)
    else (.ok cur, 0)

/-- The `finally` block of `_real_single_analysis`: delete the remote asset
if one exists and remove the temp file if one was created and still exists;
each failure is logged, never raised.  Returns (delete invocations, remove
invocations, warnings). -/
def cleanupEffects (assetExists tempCreated : Bool) (env : RealEnv) :
    Nat × Nat × List LogEvent :=
  ( if assetExists then 1 else 0,
    if tempCreated && env.temp_exists then 1 else 0,
    (if assetExists && !env.delete_ok then [LogEvent.deleteFailed] else []) ++
      (if tempCreated && env.temp_exists && !env.remove_ok then [LogEvent.removeFailed] else []) )

/-- `_real_single_analysis`: raise on a falsy URL (before any resource is
acquired), else download, upload, poll, infer — running the cleanup block on
every exit path from the `try`.  Step 4's `_call_api_with_retry` call plus
response decoding is abstracted as the oracle `env.infer`. -/
def real_single_analysis (env : RealEnv) (v : Item) : RealTrace :=
  if urlTruthy v.video_url then
    match env.fetch with
    | .failNoTemp =>
        let c := cleanupEffects false false env
        ⟨.error .fetchFail, c.1, c.2.1, 0, 0, c.2.2⟩
    | .failWithTemp =>
        let c := cleanupEffects false true env
        ⟨.error .fetchFail, c.1, c.2.1, 0, 0, c.2.2⟩
    | .ok =>
      if env.upload_ok then
        let p := pollGo env.states 1 (env.states 0) maxPollSleeps
        let c := cleanupEffects true true env
        match p.1 with
        | .error e => ⟨.error e, c.1, c.2.1, 0, p.2, c.2.2⟩
        | .ok st =>
          if st = .failed then
            ⟨.error .processingFailed, c.1, c.2.1, 0, p.2, c.2.2⟩
          else
            match env.infer with
            | .error m => ⟨.error (.inferFail m), c.1, c.2.1, 1, p.2, c.2.2⟩
            | .ok a => ⟨.ok ⟨v, some a⟩, c.1, c.2.1, 1, p.2, c.2.2⟩
      else
        let c := cleanupEffects false true env
        ⟨.error .uploadFail, c.1, c.2.1, 0, 0, c.2.2⟩
  else ⟨.error .noUrl, 0, 0, 0, 0, []⟩

/-! ### Summary synthesizer (`generate_strategy_summary`) -/

/-- The candidate models of the summary call. -/
def summaryModels : List String := ["gemini-3.1-pro-preview", "gemini-2.5-pro"]

/-- Total number of remote calls recorded in a retry trace. -/
def traceCallCount (t : RetryTrace α) : Nat :=
  (t.rounds.map (fun r => r.2.length)).sum

/-- `generate_strategy_summary`: mock mode or two empty (hence falsy) input
lists short-circuit to the fixed placeholder summary with no remote call;
otherwise one retry-wrapped call is made and any exception — the
coordinator's final `raise` included — falls back to the placeholder.
Returns the summary and the number of remote calls made. -/
def generate_strategy_summary (use_mock : Bool) (ap fb : List AnnotatedItem)
    (oracle : Nat → String → Except ErrKind StrategySummary) :
    StrategySummary × Nat :=
  if use_mock || (ap.isEmpty && fb.isEmpty) then (mockStrategySummary, 0)
  else
    let t := call_api_with_retry oracle summaryModels 3
    match t.result with
    | .ok s => (s, traceCallCount t)
    | .error _ => (mockStrategySummary, traceCallCount t)

/-! ### Constructor (`VideoAnalyzer.__init__`) -/

/-- The analyzer state `__init__` establishes. -/
structure InitState where
  use_mock : Bool
  warned : Bool
  hasClient : Bool
  deriving DecidableEq, Repr

/-- `__init__(use_mock, cache_file)`: with `use_mock=False` and a truthy
`GEMINI_API_KEY` the client is constructed (`clientCtor` abstracts
`genai.Client`); with `use_mock=False` and no key a warning is logged and
the instance silently switches to mock mode; otherwise nothing happens.
No branch raises on a missing key. -/
def initAnalyzer (use_mock keyPresent : Bool) (clientCtor : Except String Unit) :
    Except String InitState :=
  if !use_mock && keyPresent then
    match clientCtor with
    | .ok _ => .ok ⟨use_mock, false, true⟩
    | .error e => .error e
  else if !use_mock then .ok ⟨true, true, false⟩
  else .ok ⟨use_mock, false, false⟩

/-! ### Cache persistence (`_save_cache`) -/

/-- Atomic file-system steps a cache persist performs on the cache file. -/
inductive FileOp where
  | truncate
  | write (s : String)
  deriving DecidableEq, Repr

/-- Effect of one step on the cache file's content. -/
def applyOp (disk : String) : FileOp → String
  | .truncate => ""
  | .write s => disk ++ s

def applyOps (disk : String) (ops : List FileOp) : String :=
  ops.foldl applyOp disk

/-- Content of the cache file if the process crashes after the first `k`
steps of `ops`. -/
def diskAfterCrash (disk : String) (ops : List FileOp) (k : Nat) : String :=
  applyOps disk (ops.take k)

/-- JSON-like serialization of one analysis (the shape `json.dump` writes). -/
def serializeAnalysis (a : Analysis) : String :=
  "\x7b\"hook_design\": \"" ++ a.hook_design ++
    "\", \"emotional_appeal\": \"" ++ a.emotional_appeal ++
    "\", \"content_structure\": \"" ++ a.content_structure ++
    "\", \"wow_factor\": \"" ++ a.wow_factor ++
    "\", \"copywriting_features\": \"" ++ a.copywriting_features ++ "\"\x7d"

/-- JSON-like serialization of the whole cache mapping. -/
def serializeCache (c : Cache) : String :=
  "\x7b" ++
    String.intercalate ", "
      (c.map (fun p => "\"" ++ p.1 ++ "\": " ++ serializeAnalysis p.2)) ++
    "\x7d"

/-- `_save_cache`: `open(self.cache_file, 'w')` truncates the cache file in
place, then `json.dump` writes the full serialized mapping into it.  No
temporary file and no rename are involved. -/
def save_cache_ops (c : Cache) : List FileOp :=
  [.truncate, .write (serializeCache c)]

/-! ### One batch at worker granularity -/

/-- Process the items at the indices of `order` (one element per completed
worker, each worker's cache lookup and write-through taken atomically under
`cache_lock`), threading the shared in-memory cache; `runRealAt i` is the
remote outcome for index `i`.  Returns the cache after the batch. -/
def runBatchCache (use_mock : Bool) (runRealAt : Nat → Except String Analysis)
    (videos : List Item) (order : List Nat) (cache : Cache) : Cache :=
  order.foldl
    (fun c i => (analyze_single_video use_mock (runRealAt i) c (videos.getD i dummyItem)).2)
    cache

/-! ## Helper lemmas -/

lemma fillByIndex_nil (g : Nat → α) (init : List α) : fillByIndex g [] init = init := rfl

lemma fillByIndex_length (g : Nat → α) (order : List Nat) (init : List α) :
    (fillByIndex g order init).length = init.length := by
  induction order generalizing init with
  | nil => rfl
  | cons i rest ih =>
      show (fillByIndex g rest (init.set i (g i))).length = init.length
      rw [ih, List.length_set]

lemma fillByIndex_getElem? (g : Nat → α) (order : List Nat) (init : List α) (j : Nat) :
    (fillByIndex g order init)[j]? =
      if j ∈ order ∧ j < init.length then some (g j) else init[j]? := by
  induction order generalizing init with
  | nil => simp [fillByIndex]
  | cons i rest ih =>
      show (fillByIndex g rest (init.set i (g i)))[j]? = _
      rw [ih, List.length_set, List.getElem?_set]
      by_cases hm : j ∈ rest <;> by_cases hl : j < init.length <;> by_cases hij : i = j <;>
        simp_all [List.mem_cons, List.getElem?_eq_none, Nat.le_of_not_lt] <;>
        (split <;> simp_all)

/-! ## C1 — scheduler ordering and isolation -/

/-- C1: for every input list of `N` videos and every completion order of the
workers, `analyze_videos_concurrently` returns a list of exactly `N` results;
the result at index `i` is the entry determined by worker `i` alone and
carries the fields of input item `i` (`hpres` is discharged below for the
actual worker, which returns a copy of its input); and changing the worker
outcome at one index `k` — e.g. raising an exception there — leaves the
results at every other index unchanged. -/
theorem scheduler_output_ordered (videos : List Item) (order : List Nat)
    (compute compute' : Nat → Except String AnnotatedItem) (k : Nat)
    (hperm : order.Perm (List.range videos.length))
    (hpres : ∀ i r, compute i = .ok r → r.item = videos.getD i dummyItem)
    (hagree : ∀ j, j ≠ k → compute' j = compute j) :
    (analyze_videos_concurrently videos compute order).length = videos.length ∧
    (∀ j, j < videos.length →
      (analyze_videos_concurrently videos compute order)[j]? =
        some (some (schedulerEntry videos compute j)) ∧
      (schedulerEntry videos compute j).item = videos.getD j dummyItem) ∧
    (∀ j, j ≠ k →
      (analyze_videos_concurrently videos compute' order)[j]? =
        (analyze_videos_concurrently videos compute order)[j]?) := by
  refine ⟨?_, ?_, ?_⟩
  · rw [analyze_videos_concurrently, fillByIndex_length, List.length_replicate]
  · intro j hj
    have hmem : j ∈ order := (hperm.mem_iff).2 (List.mem_range.2 hj)
    constructor
    · rw [analyze_videos_concurrently, fillByIndex_getElem?,
        if_pos ⟨hmem, by rw [List.length_replicate]; exact hj⟩]
    · match hc : compute j with
      | .ok r => simpa [schedulerEntry, hc] using hpres j r hc
      | .error msg => simp [schedulerEntry, hc]
  · intro j hjk
    rw [analyze_videos_concurrently, analyze_videos_concurrently,
      fillByIndex_getElem?, fillByIndex_getElem?]
    have hentry : schedulerEntry videos compute' j = schedulerEntry videos compute j := by
      rw [schedulerEntry, schedulerEntry, hagree j hjk]
    rw [hentry]

/-- Concrete two-item batch for the scheduler witness: worker 0 succeeds,
worker 1 raises. -/
def c1Videos : List Item := [⟨"GameA", 1, some "u1"⟩, ⟨"GameB", 2, some "u2"⟩]

def c1Compute : Nat → Except String AnnotatedItem := fun i =>
  if i = 0 then .ok ⟨⟨"GameA", 1, some "u1"⟩, some mockAnalysis⟩
  else .error "worker crashed"

theorem scheduler_output_ordered_witness :
    (analyze_videos_concurrently c1Videos c1Compute [1, 0]).length = c1Videos.length :=
  (scheduler_output_ordered c1Videos [1, 0] c1Compute c1Compute 1 (by decide)
    (by
      intro i r h
      match i with
      | 0 =>
          rw [show c1Compute 0 = .ok ⟨⟨"GameA", 1, some "u1"⟩, some mockAnalysis⟩ from rfl] at h
          cases h
          rfl
      | n + 1 => exact absurd h (by rw [show c1Compute (n + 1) = .error "worker crashed" from rfl]; intro h; cases h))
    (fun _ _ => rfl)).1

/-! ## C2 — no status tag on returned items -/

def c2Item : Item := ⟨"GameC", 3, some "u3"⟩

/-- C2 counterexample: with an empty cache, the run whose remote path failed
(a degraded item, substituted placeholder) and the run whose remote call
genuinely computed the same content return identical entities — and even
identical caches.  The returned dictionary carries no status tag, so a
downstream consumer cannot distinguish the placeholder from a genuine
result, refuting the claim that every returned item carries a status tag
from \x7bcached, computed, degraded\x7d. -/
theorem no_status_tag_counterexample :
    analyze_single_video false (.error "remote failure") [] c2Item =
      analyze_single_video false (.ok mockAnalysis) [] c2Item := rfl

/-- C2 (amended): the returned entity is the input item plus an optional
analysis and nothing else: a cache hit carries the cached analysis, a fresh
remote success the computed analysis, and a failed remote path the fixed
placeholder analysis — but no status tag is attached, so a degraded item is
indistinguishable from a computed item whose analysis equals the
placeholder. -/
theorem analyze_single_video_status_cases (use_mock : Bool)
    (runReal : Except String Analysis) (cache : Cache) (v : Item) (url : String)
    (hurl : v.video_url = some url) (hne : url ≠ "") :
    (∀ a, cacheLookup cache url = some a →
      analyze_single_video use_mock runReal cache v = (⟨v, some a⟩, cache)) ∧
    (∀ a, cacheLookup cache url = none → use_mock = false → runReal = .ok a →
      (analyze_single_video use_mock runReal cache v).1 = ⟨v, some a⟩) ∧
    (∀ msg, cacheLookup cache url = none → use_mock = false → runReal = .error msg →
      (analyze_single_video use_mock runReal cache v).1 = mock_single_analysis v) := by
  have ht : urlTruthy (some url) = true := bne_iff_ne.2 hne
  refine ⟨?_, ?_, ?_⟩
  · intro a ha
    simp [analyze_single_video, hurl, ht, ha]
  · intro a h0 hm hr
    simp [analyze_single_video, hurl, ht, h0, missResult, hm, hr]
  · intro msg h0 hm hr
    simp [analyze_single_video, hurl, ht, h0, missResult, hm, hr, mock_single_analysis]

def c2CachedA : Analysis := ⟨"ch", "ce", "cc", "cw", "cf"⟩

theorem analyze_single_video_status_cases_witness :
    analyze_single_video true (.ok c2CachedA) [("u3", c2CachedA)] c2Item =
      (⟨c2Item, some c2CachedA⟩, [("u3", c2CachedA)]) :=
  (analyze_single_video_status_cases true (.ok c2CachedA) [("u3", c2CachedA)]
    c2Item "u3" rfl (by decide)).1 c2CachedA rfl

/-! ## C3 — the degraded placeholder is written to the cache -/

def c3Videos : List Item :=
  [⟨"G1", 1, some "A1"⟩, ⟨"G2", 2, some "A2"⟩, ⟨"G3", 3, some "A3"⟩]

def c3NewA1 : Analysis := ⟨"h1", "e1", "c1", "w1", "f1"⟩

def c3OldA2 : Analysis := ⟨"h2", "e2", "c2", "w2", "f2"⟩

def c3RunReal : Nat → Except String Analysis := fun i =>
  if i = 0 then .ok c3NewA1 else .error "remote failure"

def c3PreCache : Cache := [("A2", c3OldA2)]

/-- C3 counterexample: in the spec's concrete scenario (cache pre-populated
with `A2`, remote failing for `A3`), after the run the cache DOES contain an
entry for `A3` — the substituted placeholder analysis — refuting the claim
that a failed item's placeholder is never written to the cache.  The write
happens because the mock fallback result carries an `"analysis"` entry and
the write-through condition only checks for that entry. -/
theorem degraded_cached_counterexample :
    cacheLookup (runBatchCache false c3RunReal c3Videos [0, 1, 2] c3PreCache) "A3" =
      some mockAnalysis := rfl

/-- C3 (amended): in the scenario, for every completion order of the three
workers, the cache after the run contains `A1` (newly computed), `A2`
(unchanged), and additionally `A3` mapped to the fixed placeholder analysis:
the substituted placeholder of a failed item is written through to the cache
like any other result. -/
theorem scenario_cache_after_run (order : List Nat) (hperm : order.Perm [0, 1, 2]) :
    cacheLookup (runBatchCache false c3RunReal c3Videos order c3PreCache) "A1" =
      some c3NewA1 ∧
    cacheLookup (runBatchCache false c3RunReal c3Videos order c3PreCache) "A2" =
      some c3OldA2 ∧
    cacheLookup (runBatchCache false c3RunReal c3Videos order c3PreCache) "A3" =
      some mockAnalysis := by
  have hlen : order.length = 3 := hperm.length_eq
  rcases order with _ | ⟨a, _ | ⟨b, _ | ⟨c, _ | d⟩⟩⟩ <;> simp at hlen
  have ha : a ∈ [0, 1, 2] := hperm.subset (by simp)
  have hb : b ∈ [0, 1, 2] := hperm.subset (by simp)
  have hc : c ∈ [0, 1, 2] := hperm.subset (by simp)
  fin_cases ha <;> fin_cases hb <;> fin_cases hc <;>
    first
      | exact ⟨rfl, rfl, rfl⟩
      | exact absurd hperm (by decide)

theorem scenario_cache_after_run_witness :
    cacheLookup (runBatchCache false c3RunReal c3Videos [2, 0, 1] c3PreCache) "A1" =
      some c3NewA1 :=
  (scenario_cache_after_run [2, 0, 1] (by decide)).1

/-! ## Retry coordinator lemmas -/

/-- The failure classes that trigger the backoff branch (`429`, `500/503`). -/
def isBackoffKind : ErrKind → Bool
  | .rateLimit => true
  | .serverError => true
  | .notFound => false
  | .other => false

/-- Whether calling `m` in round `att` hits a rate-limit/server failure. -/
def badCall (oracle : Nat → String → Except ErrKind α) (att : Nat) (m : String) : Bool :=
  match oracle att m with
  | .error e => isBackoffKind e
  | .ok _ => false

/-- Within one round's called-models list: every call hitting a
rate-limit/server failure is the last call of the round. -/
def badIsLast (isBad : String → Bool) : List String → Bool
  | [] => true
  | m :: rest => (rest.isEmpty || !isBad m) && badIsLast isBad rest

/-- A round's model walk may stop before exhausting the candidate list only
at a success or at a backoff (rate-limit/server failure in a round with
`attempt < maxRetries - 1`) — in particular never at a not-found failure. -/
def roundEndOk (oracle : Nat → String → Except ErrKind α) (models : List String)
    (maxR : Nat) (r : Nat × List String) : Bool :=
  (r.2.length == models.length) ||
    (match r.2.getLast? with
     | some m =>
       (match oracle r.1 m with
        | .ok _ => true
        | .error e => isBackoffKind e && decide (r.1 < maxR - 1))
     | none => models.isEmpty)

lemma runInner_take (oracle : Nat → String → Except ErrKind α) (att maxR : Nat) :
    ∀ (ms : List String) (last : Option ErrKind),
      (runInner oracle att maxR ms last).2 =
        ms.take (runInner oracle att maxR ms last).2.length := by
  intro ms
  induction ms with
  | nil => intro last; rfl
  | cons m rest ih =>
      intro last
      cases ho : oracle att m with
      | ok a => simp [runInner, ho]
      | error e =>
        cases e with
        | notFound =>
            simp only [runInner, ho, List.length_cons, List.take_succ_cons]
            exact congrArg (List.cons m) (ih (some .notFound))
        | rateLimit =>
            by_cases hlt : att < maxR - 1
            · simp [runInner, ho, hlt]
            · simp only [runInner, ho, hlt, if_false, List.length_cons, List.take_succ_cons]
              exact congrArg (List.cons m) (ih (some .rateLimit))
        | serverError =>
            by_cases hlt : att < maxR - 1
            · simp [runInner, ho, hlt]
            · simp only [runInner, ho, hlt, if_false, List.length_cons, List.take_succ_cons]
              exact congrArg (List.cons m) (ih (some .serverError))
        | other =>
            simp only [runInner, ho, List.length_cons, List.take_succ_cons]
            exact congrArg (List.cons m) (ih (some .other))

lemma runInner_badIsLast (oracle : Nat → String → Except ErrKind α) (att maxR : Nat)
    (h : att < maxR - 1) :
    ∀ (ms : List String) (last : Option ErrKind),
      badIsLast (badCall oracle att) (runInner oracle att maxR ms last).2 = true := by
  intro ms
  induction ms with
  | nil => intro last; rfl
  | cons m rest ih =>
      intro last
      cases ho : oracle att m with
      | ok a => simp [runInner, ho, badIsLast]
      | error e =>
        cases e with
        | notFound => simp [runInner, ho, badIsLast, badCall, isBackoffKind, ih (some .notFound)]
        | rateLimit => simp [runInner, ho, h, badIsLast]
        | serverError => simp [runInner, ho, h, badIsLast]
        | other => simp [runInner, ho, badIsLast, badCall, isBackoffKind, ih (some .other)]

lemma runInner_countP (oracle : Nat → String → Except ErrKind α) (att maxR : Nat)
    (h : att < maxR - 1) :
    ∀ (ms : List String) (last : Option ErrKind),
      (runInner oracle att maxR ms last).2.countP (badCall oracle att) =
        (match (runInner oracle att maxR ms last).1 with
         | .backoff _ => 1
         | _ => 0) := by
  intro ms
  induction ms with
  | nil => intro last; rfl
  | cons m rest ih =>
      intro last
      cases ho : oracle att m with
      | ok a => simp [runInner, ho, List.countP_cons, badCall]
      | error e =>
        cases e with
        | notFound =>
            simp only [runInner, ho, List.countP_cons]
            have : badCall oracle att m = false := by simp [badCall, ho, isBackoffKind]
            simp [this, ih (some .notFound)]
        | rateLimit =>
            simp only [runInner, ho, h, if_true]
            have : badCall oracle att m = true := by simp [badCall, ho, isBackoffKind]
            simp [List.countP_cons, this]
        | serverError =>
            simp only [runInner, ho, h, if_true]
            have : badCall oracle att m = true := by simp [badCall, ho, isBackoffKind]
            simp [List.countP_cons, this]
        | other =>
            simp only [runInner, ho, List.countP_cons]
            have : badCall oracle att m = false := by simp [badCall, ho, isBackoffKind]
            simp [this, ih (some .other)]

lemma runInner_backoff_lt (oracle : Nat → String → Except ErrKind α) (att maxR : Nat) :
    ∀ (ms : List String) (last : Option ErrKind) (e : ErrKind),
      (runInner oracle att maxR ms last).1 = .backoff e → att < maxR - 1 := by
  intro ms
  induction ms with
  | nil => intro last e h; exact absurd h (by simp [runInner])
  | cons m rest ih =>
      intro last e h
      cases ho : oracle att m with
      | ok a => simp [runInner, ho] at h
      | error e2 =>
        cases e2 with
        | notFound =>
            simp only [runInner, ho] at h
            exact ih (some .notFound) e h
        | rateLimit =>
            by_cases hlt : att < maxR - 1
            · exact hlt
            · simp only [runInner, ho, hlt, if_false] at h
              exact ih (some .rateLimit) e h
        | serverError =>
            by_cases hlt : att < maxR - 1
            · exact hlt
            · simp only [runInner, ho, hlt, if_false] at h
              exact ih (some .serverError) e h
        | other =>
            simp only [runInner, ho] at h
            exact ih (some .other) e h

lemma runInner_endOk (oracle : Nat → String → Except ErrKind α) (att maxR : Nat) :
    ∀ (ms : List String) (last : Option ErrKind),
      roundEndOk oracle ms maxR (att, (runInner oracle att maxR ms last).2) = true := by
  intro ms
  induction ms with
  | nil => intro last; simp [runInner, roundEndOk]
  | cons m rest ih =>
      intro last
      cases ho : oracle att m with
      | ok a => simp [runInner, ho, roundEndOk]
      | error e =>
        have step : ∀ e' : ErrKind,
            roundEndOk oracle (m :: rest) maxR
              (att, m :: (runInner oracle att maxR rest (some e')).2) = true := by
          intro e'
          have h := ih (some e')
          cases ht : (runInner oracle att maxR rest (some e')).2 with
          | nil =>
              rw [ht] at h
              simp only [roundEndOk] at h ⊢
              rcases Bool.or_eq_true_iff.1 h with h1 | h1
              · have : rest = [] := by
                  simpa [List.length_eq_zero] using (beq_iff_eq.1 h1).symm
                subst this
                simp
              · have : rest = [] := by simpa [List.isEmpty_iff] using h1
                subst this
                simp
          | cons x xs =>
              rw [ht] at h
              simp only [roundEndOk] at h ⊢
              rcases Bool.or_eq_true_iff.1 h with h1 | h1
              · apply Bool.or_eq_true_iff.2
                left
                simpa using beq_iff_eq.2 (congrArg Nat.succ (beq_iff_eq.1 h1))
              · apply Bool.or_eq_true_iff.2
                right
                simpa [List.getLast?_cons_cons] using h1
        cases e with
        | notFound => simpa only [runInner, ho] using step .notFound
        | rateLimit =>
            by_cases hlt : att < maxR - 1
            · simp [runInner, ho, hlt, roundEndOk, isBackoffKind]
            · simpa only [runInner, ho, hlt, if_false] using step .rateLimit
        | serverError =>
            by_cases hlt : att < maxR - 1
            · simp [runInner, ho, hlt, roundEndOk, isBackoffKind]
            · simpa only [runInner, ho, hlt, if_false] using step .serverError
        | other => simpa only [runInner, ho] using step .other

lemma runOuter_rounds_all (oracle : Nat → String → Except ErrKind α)
    (models : List String) (maxR : Nat) (p : Nat × List String → Bool)
    (hp : ∀ att last, p (att, (runInner oracle att maxR models last).2) = true) :
    ∀ (remaining att delay : Nat) (last : Option ErrKind),
      ((runOuter oracle models maxR remaining att delay last).rounds).all p = true := by
  intro remaining
  induction remaining with
  | zero => intro att delay last; rfl
  | succ n ih =>
      intro att delay last
      rcases hro : runInner oracle att maxR models last with ⟨o, ms⟩
      have hpr : p (att, ms) = true := by
        have := hp att last
        rw [hro] at this
        exact this
      cases o with
      | success a => simp [runOuter, hro, hpr]
      | backoff e => simp [runOuter, hro, hpr, ih]
      | exhausted l2 => simp [runOuter, hro, hpr, ih]

lemma runOuter_sleeps_formula (oracle : Nat → String → Except ErrKind α)
    (models : List String) (maxR : Nat) :
    ∀ (remaining att delay : Nat) (last : Option ErrKind),
      (runOuter oracle models maxR remaining att delay last).sleeps =
        (List.range (runOuter oracle models maxR remaining att delay last).sleeps.length).map
          (fun i => delay * 2 ^ i) := by
  intro remaining
  induction remaining with
  | zero => intro att delay last; rfl
  | succ n ih =>
      intro att delay last
      rcases hro : runInner oracle att maxR models last with ⟨o, ms⟩
      cases o with
      | success a => simp [runOuter, hro]
      | backoff e =>
          simp only [runOuter, hro, List.length_cons, List.range_succ_eq_map, List.map_cons,
            List.map_map, pow_zero, mul_one]
          congr 1
          rw [ih (att + 1) (delay * 2) (some e)]
          simp only [List.length_map, List.length_range]
          refine List.map_congr_left ?_
          intro i _
          simp only [Function.comp_apply, pow_succ]
          ring
      | exhausted l2 => simp only [runOuter, hro]; exact ih (att + 1) delay l2

lemma runOuter_sleeps_count (oracle : Nat → String → Except ErrKind α)
    (models : List String) (maxR : Nat) :
    ∀ (remaining att delay : Nat) (last : Option ErrKind),
      (runOuter oracle models maxR remaining att delay last).sleeps.length =
        ((runOuter oracle models maxR remaining att delay last).rounds.map
          (fun r => if r.1 < maxR - 1 then r.2.countP (badCall oracle r.1) else 0)).sum := by
  intro remaining
  induction remaining with
  | zero => intro att delay last; rfl
  | succ n ih =>
      intro att delay last
      rcases hro : runInner oracle att maxR models last with ⟨o, ms⟩
      cases o with
      | success a =>
          by_cases hlt : att < maxR - 1
          · have hc := runInner_countP oracle att maxR hlt models last
            rw [hro] at hc
            simp only at hc
            simp [runOuter, hro, hlt, hc]
          · simp [runOuter, hro, hlt]
      | backoff e =>
          have hlt : att < maxR - 1 := by
            apply runInner_backoff_lt oracle att maxR models last e
            rw [hro]
          have hc := runInner_countP oracle att maxR hlt models last
          rw [hro] at hc
          simp only at hc
          simp [runOuter, hro, hlt, hc, ih (att + 1) (delay * 2) (some e), Nat.add_comm]
      | exhausted l2 =>
          by_cases hlt : att < maxR - 1
          · have hc := runInner_countP oracle att maxR hlt models last
            rw [hro] at hc
            simp only at hc
            simp [runOuter, hro, hlt, hc, ih (att + 1) delay l2]
          · simp [runOuter, hro, hlt, ih (att + 1) delay l2]

/-! ## C4 — backoff policy for rate-limit / server failures -/

/-- Claim C4's universal part as a checkable trace predicate: every
rate-limit/5xx failure is the last call of its round (the remaining
candidates are abandoned), and there are exactly as many backoff sleeps as
such failures. -/
def c4ClaimCheck (oracle : Nat → String → Except ErrKind α) (t : RetryTrace α) : Bool :=
  t.rounds.all (fun r => badIsLast (badCall oracle r.1) r.2) &&
    (t.sleeps.length == (t.rounds.map (fun r => r.2.countP (badCall oracle r.1))).sum)

/-- Oracle for the C4 counterexample: `modelA` always rate-limits, `modelB`
always succeeds. -/
def c4CexOracle : Nat → String → Except ErrKind Nat := fun _ m =>
  if m = "modelB" then .ok 42 else .error .rateLimit

/-- C4 counterexample: with `max_retries = 3` and models `[modelA, modelB]`,
`modelA` rate-limits in all three rounds.  The first two failures back off
(sleeps 2, 4), but the third happens in the final round
(`attempt = max_retries - 1`), where the `429` branch's guard is false: the
coordinator does NOT abandon the remaining models and does NOT sleep — it
advances to `modelB` within the same round and returns its success.  So the
claim's universal statement (every rate-limit failure abandons the rest of
the round and sleeps) is false on this input: three rate-limit failures,
only two sleeps, and a same-round call after the third. -/
theorem rate_limit_backoff_counterexample :
    call_api_with_retry c4CexOracle ["modelA", "modelB"] 3 =
      ⟨[(0, ["modelA"]), (1, ["modelA"]), (2, ["modelA", "modelB"])], [2, 4], .ok 42⟩ ∧
    c4CexOracle 2 "modelA" = .error .rateLimit ∧
    c4ClaimCheck c4CexOracle (call_api_with_retry c4CexOracle ["modelA", "modelB"] 3) =
      false :=
  ⟨rfl, rfl, rfl⟩

/-- Oracle for the C4 scenario: two rate-limit failures, then success on the
same model. -/
def c4ScenOracle : Nat → String → Except ErrKind Nat := fun att _ =>
  if att ≥ 2 then .ok 1 else .error .rateLimit

/-- C4 (amended): for every oracle, candidate list and retry bound, in the
trace of `_call_api_with_retry`: (1) the sleeps are `2, 4, 8, ...` — seeded
at 2 and doubling after each backoff sleep, hence strictly increasing;
(2) every round restarts the model loop from the first candidate (the models
called in a round are a prefix of the candidate list); (3) in every round
other than the last, a rate-limit/5xx failure is the last call of its round
(the remaining candidates are abandoned); (4) there are exactly as many
sleeps as rate-limit/5xx failures in non-final rounds (each such failure
backs off once; in the final round such a failure is treated like any other
error and advances with no sleep); and (5) in particular, two rate-limit
failures followed by a success on the same model yield exactly two delayed
retries with strictly increasing delays 2 and 4 before the success is
returned. -/
theorem retry_backoff_policy (oracle : Nat → String → Except ErrKind α)
    (models : List String) (maxRetries : Nat) :
    (call_api_with_retry oracle models maxRetries).sleeps =
      (List.range (call_api_with_retry oracle models maxRetries).sleeps.length).map
        (fun i => 2 * 2 ^ i) ∧
    ((call_api_with_retry oracle models maxRetries).rounds.all
      (fun r => r.2 == models.take r.2.length)) = true ∧
    ((call_api_with_retry oracle models maxRetries).rounds.all
      (fun r => if r.1 < maxRetries - 1 then badIsLast (badCall oracle r.1) r.2
                else true)) = true ∧
    (call_api_with_retry oracle models maxRetries).sleeps.length =
      ((call_api_with_retry oracle models maxRetries).rounds.map
        (fun r => if r.1 < maxRetries - 1 then r.2.countP (badCall oracle r.1) else 0)).sum ∧
    call_api_with_retry c4ScenOracle ["modelA"] 3 =
      ⟨[(0, ["modelA"]), (1, ["modelA"]), (2, ["modelA"])], [2, 4], .ok 1⟩ := by
  refine ⟨?_, ?_, ?_, ?_, rfl⟩
  · exact runOuter_sleeps_formula oracle models maxRetries maxRetries 0 2 none
  · apply runOuter_rounds_all
    intro att last
    exact beq_iff_eq.2 (runInner_take oracle att maxRetries models last)
  · apply runOuter_rounds_all
    intro att last
    by_cases hlt : att < maxRetries - 1
    · simp only [hlt, if_true]
      exact runInner_badIsLast oracle att maxRetries hlt models last
    · simp [hlt]
  · exact runOuter_sleeps_count oracle models maxRetries maxRetries 0 2 none

/-! ## C5 — not-found advances to the next candidate -/

/-- Oracle for the C5 scenario: `modelA` is not found, `modelB` succeeds. -/
def c5ScenOracle : Nat → String → Except ErrKind Nat := fun _ m =>
  if m = "modelB" then .ok 7 else .error .notFound

/-- C5: a round's model walk stops before exhausting the candidate list only
at a success or at a non-final-round rate-limit/5xx backoff — never at a
not-found failure, which therefore always advances to the next candidate
within the same round, with no sleep attributable to it (sleeps are counted
by rate-limit/5xx failures only, conjunct 2) and no outer round consumed.
In particular (conjunct 3), a not-found failure on `modelA` followed by a
success on `modelB` returns `modelB`'s result within round 0 with zero
sleeps. -/
theorem not_found_advances (oracle : Nat → String → Except ErrKind α)
    (models : List String) (maxRetries : Nat) :
    ((call_api_with_retry oracle models maxRetries).rounds.all
      (roundEndOk oracle models maxRetries)) = true ∧
    (call_api_with_retry oracle models maxRetries).sleeps.length =
      ((call_api_with_retry oracle models maxRetries).rounds.map
        (fun r => if r.1 < maxRetries - 1 then r.2.countP (badCall oracle r.1) else 0)).sum ∧
    call_api_with_retry c5ScenOracle ["modelA", "modelB"] 3 =
      ⟨[(0, ["modelA", "modelB"])], [], .ok 7⟩ := by
  refine ⟨?_, ?_, rfl⟩
  · apply runOuter_rounds_all
    intro att last
    exact runInner_endOk oracle att maxRetries models last
  · exact runOuter_sleeps_count oracle models maxRetries maxRetries 0 2 none

/-! ## C6 — guaranteed resource release -/

/-- C6: on every exit path of `_real_single_analysis` — success, any failure
in poll or inference, a polling timeout — once the remote asset exists
(upload succeeded) and the download created the temp file (still present at
cleanup), the remote-asset deletion and the local temp-file removal are each
invoked exactly once; a failing release is logged; and the returned
result/exception is independent of whether either release succeeds (release
failures are never raised to the caller).  The final conjunct covers the
upload-failure exit path: the temp file is still removed exactly once and no
remote delete is attempted. -/
theorem real_single_analysis_cleanup (env : RealEnv) (v : Item)
    (hurl : urlTruthy v.video_url = true) :
    (env.fetch = .ok → env.upload_ok = true → env.temp_exists = true →
      (real_single_analysis env v).deleteCalls = 1 ∧
      (real_single_analysis env v).removeCalls = 1 ∧
      (env.delete_ok = false → .deleteFailed ∈ (real_single_analysis env v).warnLogs) ∧
      (env.remove_ok = false → .removeFailed ∈ (real_single_analysis env v).warnLogs)) ∧
    (∀ env' : RealEnv, env'.fetch = env.fetch → env'.upload_ok = env.upload_ok →
      env'.states = env.states → env'.infer = env.infer →
      env'.temp_exists = env.temp_exists →
      (real_single_analysis env' v).result = (real_single_analysis env v).result) ∧
    (env.fetch = .ok → env.upload_ok = false → env.temp_exists = true →
      (real_single_analysis env v).deleteCalls = 0 ∧
      (real_single_analysis env v).removeCalls = 1) := by
  refine ⟨?_, ?_, ?_⟩
  · intro hf hu ht
    have hbody : real_single_analysis env v =
        (let p := pollGo env.states 1 (env.states 0) maxPollSleeps
         let c := cleanupEffects true true env
         match p.1 with
         | .error e => ⟨.error e, c.1, c.2.1, 0, p.2, c.2.2⟩
         | .ok st =>
           if st = .failed then
             ⟨.error .processingFailed, c.1, c.2.1, 0, p.2, c.2.2⟩
           else
             match env.infer with
             | .error m => ⟨.error (.inferFail m), c.1, c.2.1, 1, p.2, c.2.2⟩
             | .ok a => ⟨.ok ⟨v, some a⟩, c.1, c.2.1, 1, p.2, c.2.2⟩) := by
      rw [real_single_analysis, if_pos hurl, hf, hu]
      simp
    rw [hbody]
    rcases hp : (pollGo env.states 1 (env.states 0) maxPollSleeps).1 with e | st
    · simp [hp, cleanupEffects, ht]
    · by_cases hst : st = .failed
      · simp [hp, hst, cleanupEffects, ht]
      · rcases hi : env.infer with m | a <;> simp [hp, hst, hi, cleanupEffects, ht]
  · intro env' hf hu hs hi ht
    rw [real_single_analysis, real_single_analysis, if_pos hurl, if_pos hurl, hf, hu, hs, hi]
    cases henv : env.fetch with
    | failNoTemp => rfl
    | failWithTemp => rfl
    | ok =>
        cases hu2 : env.upload_ok with
        | false => rfl
        | true =>
            rcases hp : (pollGo env.states 1 (env.states 0) maxPollSleeps).1 with e | st
            · simp [hp]
            · by_cases hst : st = .failed
              · simp [hp, hst]
              · rcases hi2 : env.infer with m | a <;> simp [hp, hst, hi2]
  · intro hf hu ht
    rw [real_single_analysis, if_pos hurl, hf, hu]
    simp [cleanupEffects, ht]

/-- Concrete environment for the cleanup witness: download and upload
succeed, the remote file never leaves `PROCESSING` (timeout path), and the
remote delete fails (logged). -/
def c6Env : RealEnv :=
  ⟨.ok, true, fun _ => .processing, .error "unreachable", false, true, true⟩

def c6Item : Item := ⟨"GameD", 4, some "u6"⟩

theorem real_single_analysis_cleanup_witness :
    (real_single_analysis c6Env c6Item).deleteCalls = 1 ∧
    (real_single_analysis c6Env c6Item).removeCalls = 1 :=
  ⟨((real_single_analysis_cleanup c6Env c6Item (by decide)).1 rfl rfl rfl).1,
   ((real_single_analysis_cleanup c6Env c6Item (by decide)).1 rfl rfl rfl).2.1⟩

/-! ## C9 — bounded polling -/

lemma pollGo_slept_le (states : Nat → FileState) :
    ∀ (fuel k : Nat) (cur : FileState), (pollGo states k cur fuel).2 ≤ 5 * fuel := by
  intro fuel
  induction fuel with
  | zero =>
      intro k cur
      by_cases hc : cur = .processing <;> simp [pollGo, hc]
  | succ n ih =>
      intro k cur
      by_cases hc : cur = .processing
      · have := ih (k + 1) (states k)
        simp only [pollGo, hc, if_true]
        omega
      · simp [pollGo, hc]

lemma pollGo_ok_not_processing (states : Nat → FileState) :
    ∀ (fuel k : Nat) (cur : FileState) (st : FileState),
      (pollGo states k cur fuel).1 = .ok st → st ≠ .processing := by
  intro fuel
  induction fuel with
  | zero =>
      intro k cur st h
      by_cases hc : cur = .processing
      · simp [pollGo, hc] at h
      · simp [pollGo, hc] at h
        subst h
        exact hc
  | succ n ih =>
      intro k cur st h
      by_cases hc : cur = .processing
      · simp only [pollGo, hc, if_true] at h
        exact ih (k + 1) (states k) st h
      · simp [pollGo, hc] at h
        subst h
        exact hc

lemma pollGo_all_processing (states : Nat → FileState) :
    ∀ (fuel k : Nat),
      (∀ j, k ≤ j → j < k + fuel → states j = .processing) →
      pollGo states k .processing fuel = (.error .timeout, 5 * fuel) := by
  intro fuel
  induction fuel with
  | zero => intro k _; simp [pollGo]
  | succ n ih =>
      intro k h
      have hk : states k = .processing := h k (Nat.le_refl k) (by omega)
      have hrec := ih (k + 1) (fun j hj1 hj2 => h j (by omega) (by omega))
      simp [pollGo, hk, hrec, Nat.mul_succ]

/-- C9: the polling loop terminates for every sequence of remote states (it
is a total function of bounded recursion depth); the total time slept is at
most the 180-time-unit bound; a state returned by the loop is never
`PROCESSING` (the loop runs until ready or failed); if the remote file is
still `PROCESSING` at every observation, the loop raises the timeout failure
after sleeping exactly 180 time-units; and inside `_real_single_analysis`
the `FAILED` state is a terminal failure for the item: the routine
propagates the processing-failed error without invoking inference. -/
theorem poll_bounded_terminal (states : Nat → FileState) :
    (pollGo states 1 (states 0) maxPollSleeps).2 ≤ 180 ∧
    (∀ st, (pollGo states 1 (states 0) maxPollSleeps).1 = .ok st → st ≠ .processing) ∧
    ((∀ j, j ≤ maxPollSleeps → states j = .processing) →
      pollGo states 1 (states 0) maxPollSleeps = (.error .timeout, 180)) ∧
    (∀ (env : RealEnv) (v : Item), urlTruthy v.video_url = true →
      env.fetch = .ok → env.upload_ok = true →
      (pollGo env.states 1 (env.states 0) maxPollSleeps).1 = .ok .failed →
      (real_single_analysis env v).result = .error .processingFailed ∧
      (real_single_analysis env v).inferCalls = 0) := by
  refine ⟨?_, ?_, ?_, ?_⟩
  · exact pollGo_slept_le states maxPollSleeps 1 (states 0)
  · intro st h
    exact pollGo_ok_not_processing states maxPollSleeps 1 (states 0) st h
  · intro h
    rw [h 0 (by omega)]
    exact pollGo_all_processing states maxPollSleeps 1
      (fun j hj1 hj2 => h j (by simp [maxPollSleeps] at hj2 ⊢; omega))
  · intro env v hurl hf hu hp
    rw [real_single_analysis, if_pos hurl, hf, hu]
    simp [hp]

def c9States : Nat → FileState := fun _ => .processing

theorem poll_bounded_terminal_witness :
    pollGo c9States 1 (c9States 0) maxPollSleeps = (.error .timeout, 180) :=
  (poll_bounded_terminal c9States).2.2.1 (fun _ _ => rfl)

/-! ## C7 — cache persistence is not atomic -/

/-- C7 counterexample: start from a disk holding the previously persisted
mapping `{A2}` and persist the grown mapping `{A2, A1}`.
`_save_cache` opens the cache file with mode `'w'`, which truncates it in
place before `json.dump` writes; a crash after the truncation (after step 1
of the persist) leaves an empty file — the previously persisted entries are
NOT intact, refuting the claimed temp-file-plus-atomic-rename (or
equivalent) behaviour. -/
theorem cache_write_not_atomic_counterexample :
    diskAfterCrash (serializeCache [("A2", c3OldA2)])
      (save_cache_ops [("A2", c3OldA2), ("A1", c3NewA1)]) 1 = "" ∧
    serializeCache [("A2", c3OldA2)] ≠ "" :=
  ⟨rfl, by decide⟩

/-- C7 (amended): a cache persist truncates the cache file in place and then
writes the full serialized mapping directly into it.  An uninterrupted
persist leaves exactly the new serialization, but the persist is not
all-or-nothing: a crash before any step leaves the old content, while a
crash between the truncation and the completed write leaves the empty file
(a strict prefix of the new serialization), not the previously persisted
entries. -/
theorem save_cache_write_replace (c : Cache) (disk : String) :
    diskAfterCrash disk (save_cache_ops c) 0 = disk ∧
    diskAfterCrash disk (save_cache_ops c) 1 = "" ∧
    (∀ k, 2 ≤ k → diskAfterCrash disk (save_cache_ops c) k = serializeCache c) := by
  refine ⟨rfl, rfl, ?_⟩
  intro k hk
  rw [diskAfterCrash, List.take_of_length_le (by simp [save_cache_ops]; omega)]
  simp [applyOps, applyOp, save_cache_ops]

theorem save_cache_write_replace_witness :
    diskAfterCrash "olddata" (save_cache_ops [("A2", c3OldA2)]) 5 =
      serializeCache [("A2", c3OldA2)] :=
  (save_cache_write_replace [("A2", c3OldA2)] "olddata").2.2 5 (by omega)

/-! ## C8 — summary placeholder short-circuit and fallback -/

/-- C8: `generate_strategy_summary` returns the fixed placeholder summary
with zero remote calls whenever the pipeline is in mock mode or both input
lists are empty; and whenever the retry-coordinator-wrapped summary call
fails unrecoverably (its result is the final raised error), the returned
summary is that same fixed placeholder instead of an exception. -/
theorem strategy_summary_fallback (use_mock : Bool) (ap fb : List AnnotatedItem)
    (oracle : Nat → String → Except ErrKind StrategySummary) :
    (use_mock = true →
      generate_strategy_summary use_mock ap fb oracle = (mockStrategySummary, 0)) ∧
    (ap = [] → fb = [] →
      generate_strategy_summary use_mock ap fb oracle = (mockStrategySummary, 0)) ∧
    (∀ err, (call_api_with_retry oracle summaryModels 3).result = .error err →
      (generate_strategy_summary use_mock ap fb oracle).1 = mockStrategySummary) := by
  refine ⟨?_, ?_, ?_⟩
  · intro h
    simp [generate_strategy_summary, h]
  · intro h1 h2
    subst h1
    subst h2
    simp [generate_strategy_summary]
  · intro err herr
    by_cases hm : (use_mock || (ap.isEmpty && fb.isEmpty)) = true
    · simp [generate_strategy_summary, hm]
    · simp [generate_strategy_summary, hm, herr]

theorem strategy_summary_fallback_witness :
    generate_strategy_summary false [] []
      (fun _ _ => .ok mockStrategySummary) = (mockStrategySummary, 0) :=
  (strategy_summary_fallback false [] [] (fun _ _ => .ok mockStrategySummary)).2.1 rfl rfl

/-! ## C10 — missing credential falls back to mock mode -/

def c10Item : Item := ⟨"GameE", 5, some "u10"⟩

/-- C10: constructing the analyzer with `use_mock=False` while the
`GEMINI_API_KEY` credential is absent does not raise: `__init__` returns
normally, having logged a warning and silently switched the instance to mock
mode (`use_mock = true`, no client).  Every subsequent per-item analysis of
the mock-mode instance is independent of the remote oracle (the remote
service is never contacted), returns the fixed mock analysis on a cache
miss, and the summary call returns the mock summary with zero remote
calls. -/
theorem init_missing_key_mock_fallback (clientCtor : Except String Unit)
    (cache : Cache) (v : Item) (runReal runReal2 : Except String Analysis)
    (ap fb : List AnnotatedItem)
    (oracle : Nat → String → Except ErrKind StrategySummary) :
    initAnalyzer false false clientCtor = .ok ⟨true, true, false⟩ ∧
    analyze_single_video true runReal cache v =
      analyze_single_video true runReal2 cache v ∧
    (urlTruthy v.video_url = false →
      (analyze_single_video true runReal cache v).1 = mock_single_analysis v) ∧
    (cacheLookup cache (v.video_url.getD "") = none →
      (analyze_single_video true runReal cache v).1 = mock_single_analysis v) ∧
    generate_strategy_summary true ap fb oracle = (mockStrategySummary, 0) := by
  refine ⟨rfl, rfl, ?_, ?_, rfl⟩
  · intro h
    simp [analyze_single_video, h, missResult]
  · intro h
    by_cases ht : urlTruthy v.video_url = true
    · simp [analyze_single_video, ht, h, missResult, mock_single_analysis]
    · simp only [Bool.not_eq_true] at ht
      simp [analyze_single_video, ht, missResult]

theorem init_missing_key_mock_fallback_witness :
    initAnalyzer false false (.ok ()) = .ok ⟨true, true, false⟩ ∧
    (analyze_single_video true (.error "remote") [] c10Item).1 =
      mock_single_analysis c10Item :=
  ⟨(init_missing_key_mock_fallback (.ok ()) [] c10Item (.error "remote")
      (.error "remote") [] [] (fun _ _ => .ok mockStrategySummary)).1,
   (init_missing_key_mock_fallback (.ok ()) [] c10Item (.error "remote")
      (.error "remote") [] [] (fun _ _ => .ok mockStrategySummary)).2.2.2.1 rfl⟩

end SlgPipeline
